import Mathlib

/-!
Verification of the NLC-9 protocol core (`src/main.py`): a shallow embedding
of the identifier registry, header packing, CRC32 checksum, schema-typed
parameter codec, message build/parse, and the message-router operations
(consensus tallying, rate limiting, queue draining), together with theorems
settling the specification claims.

Strings are modelled as lists of bytes (`ByteStr`); all inputs of interest
are ASCII, so Python's `str.lower`/`str.upper`/`str.strip` are modelled by
their ASCII action and UTF-8 encoding is the identity on byte values.
Python `float` values are modelled as rationals.
-/

set_option maxRecDepth 100000

namespace NLC9

/-- A Python string, as its UTF-8 byte sequence. -/
abbrev ByteStr := List Nat

/-- Bytes of an ASCII Lean string literal. -/
def strB (s : String) : ByteStr := s.data.map Char.toNat

/-- ASCII lowercasing of one byte (action of Python `str.lower` on ASCII). -/
def lowerByte (b : Nat) : Nat := if 65 ≤ b ∧ b ≤ 90 then b + 32 else b

/-- ASCII uppercasing of one byte (action of Python `str.upper` on ASCII). -/
def upperByte (b : Nat) : Nat := if 97 ≤ b ∧ b ≤ 122 then b - 32 else b

/-- ASCII whitespace, as stripped by Python `str.strip`. -/
def isSpaceByte (b : Nat) : Bool := b = 32 ∨ (9 ≤ b ∧ b ≤ 13)

def lowerB (s : ByteStr) : ByteStr := s.map lowerByte

def upperB (s : ByteStr) : ByteStr := s.map upperByte

/-- Python `str.strip`: drop whitespace from both ends. -/
def stripB (s : ByteStr) : ByteStr :=
  ((s.dropWhile isSpaceByte).reverse.dropWhile isSpaceByte).reverse

/-- One step of the reflected CRC-32 shift loop (polynomial 0xEDB88320). -/
def crcStep (c : Nat) : Nat :=
  if c % 2 = 1 then (c >>> 1) ^^^ 0xEDB88320 else c >>> 1

/-- Fold one byte into the CRC state: xor it in, then shift eight times. -/
def crcByte (c b : Nat) : Nat := crcStep^[8] (c ^^^ (b &&& 0xFF))

/-- zlib `crc32` over a byte sequence (initial value 0). -/
def crc32 (data : List Nat) : Nat :=
  (data.foldl crcByte 0xFFFFFFFF) ^^^ 0xFFFFFFFF

/-- `crc32_u32`: CRC32 masked to uint32 (src/main.py:162-164). -/
def crc32_u32 (data : List Nat) : Nat := crc32 data &&& 0xFFFFFFFF

/-- `token_id`: deterministic 32-bit id of a string (src/main.py:166-168),
`crc32_u32(name.strip().lower().encode("utf-8"))`. -/
def token_id (name : ByteStr) : Nat := crc32_u32 (lowerB (stripB name))

-- Sanity anchors: values computed by zlib.crc32 on the same byte strings.
example : crc32 [] = 0 := by decide
example : crc32 (strB "ping") = 634732029 := by decide
example : crc32 (strB "42") = 841265288 := by decide
example : crc32 (strB "example.com") = 3069857465 := by decide

/-- `u32`: mask a nonnegative word to uint32 (src/main.py:209-211). -/
def u32 (n : Nat) : Nat := n &&& 0xFFFFFFFF

/-- Python `n & 0xFFFFFFFF` on a possibly negative `int`: two's-complement
reduction mod 2^32. -/
def u32I (n : Int) : Nat := (n % 4294967296).toNat

/-- `domain_id16` (src/main.py:170-174): 16-bit domain id; `None`/empty → 0. -/
def domain_id16 (name : Option ByteStr) : Nat :=
  match name with
  | none => 0
  | some s => if s = [] then 0 else crc32_u32 (lowerB (stripB s)) &&& 0xFFFF

/-- `pack_header` (src/main.py:176-184): version/flags/domain range-checked,
then packed as `version:4 | flags:12 | domain:16`. Inputs are Python ints,
so negatives are representable and rejected. -/
def pack_header (version flags_bits domain16 : Int) : Except String Nat :=
  if 0 ≤ version ∧ version ≤ 15 then
    if 0 ≤ flags_bits ∧ flags_bits < 4096 then
      if 0 ≤ domain16 ∧ domain16 ≤ 65535 then
        .ok (((version.toNat &&& 0xF) <<< 28) |||
             ((flags_bits.toNat &&& 0xFFF) <<< 16) |||
             (domain16.toNat &&& 0xFFFF))
      else .error "domain16 must be 0..65535"
    else .error "flags must fit in 12 bits"
  else .error "version must be 0..15"

/-- `unpack_header` (src/main.py:186-191). -/
def unpack_header (header : Nat) : Nat × Nat × Nat :=
  ((header >>> 28) &&& 0xF, (header >>> 16) &&& 0xFFF, header &&& 0xFFFF)

/-- `FLAG_BITS` (src/main.py:80-94): the twelve named flag bits. -/
def FLAG_BITS : List (ByteStr × Nat) :=
  [(strB "ACK", 0), (strB "STREAM", 1), (strB "URGENT", 2),
   (strB "ENCRYPTED", 3), (strB "SIGNED", 4), (strB "BROADCAST", 5),
   (strB "CONSENSUS", 6), (strB "REPLAY", 7), (strB "COMPRESS", 8),
   (strB "ROUTE", 9), (strB "METRIC", 10), (strB "DEBUG", 11)]

/-- `flags_to_bits` (src/main.py:193-203): strip+upper each name, look it
up, or-in its bit; unknown names raise. -/
def flags_to_bits (flags : List ByteStr) : Except String Nat :=
  flags.foldlM
    (fun bits f =>
      match FLAG_BITS.lookup (upperB (stripB f)) with
      | some pos => .ok (bits ||| (1 <<< pos))
      | none => .error "Unknown flag")
    0

/-- Big-endian 4-byte encoding of a uint32 word (one `>I` of `struct.pack`). -/
def be32 (n : Nat) : List Nat :=
  [(n >>> 24) &&& 0xFF, (n >>> 16) &&& 0xFF, (n >>> 8) &&& 0xFF, n &&& 0xFF]

/-- The 36-byte big-endian packing of nine words. -/
def packWords (nums : List Nat) : List Nat := nums.flatMap be32

/-- `pack9` (src/main.py:221-225): length-checked, each word masked. -/
def pack9 (nums : List Nat) : Except String (List Nat) :=
  if nums.length = 9 then .ok (packWords (nums.map u32)) else .error "Need exactly 9 numbers"

/-- `SEEDED_VERBS` = initial `VERBS` registry (src/main.py:97-122, 153). -/
def VERBS0 : List (ByteStr × Nat) :=
  [(strB "PING", 1), (strB "GET", 2), (strB "SET", 3), (strB "ASK", 4),
   (strB "TELL", 5), (strB "PLAN", 6), (strB "EXEC", 7), (strB "REPORT", 8),
   (strB "ACK", 9), (strB "NACK", 10), (strB "SIGNAL", 11), (strB "TRADE", 12),
   (strB "HEDGE", 13), (strB "CLOSE", 14), (strB "CANCEL", 15), (strB "COORD", 16),
   (strB "VOTE", 17), (strB "SYNC", 18), (strB "ELECT", 19), (strB "DELEGATE", 20),
   (strB "MONITOR", 21), (strB "ALERT", 22), (strB "MEASURE", 23),
   (strB "ANALYZE", 24), (strB "OPTIMIZE", 25)]

/-- `SEEDED_OBJECTS` = initial `OBJECTS` registry (src/main.py:125-150, 154). -/
def OBJECTS0 : List (ByteStr × Nat) :=
  [(strB "AGENT", 1), (strB "TASK", 2), (strB "TOOL", 3), (strB "MEMORY", 4),
   (strB "FILE", 5), (strB "MODEL", 6), (strB "ENV", 7), (strB "HEALTH", 8),
   (strB "EVENT", 9), (strB "ERROR", 10), (strB "MARKET", 11), (strB "POOL", 12),
   (strB "WALLET", 13), (strB "POSITION", 14), (strB "ORDER", 15), (strB "SWARM", 16),
   (strB "STRATEGY", 17), (strB "CONSENSUS", 18), (strB "LEADER", 19),
   (strB "FOLLOWER", 20), (strB "METRICS", 21), (strB "CONFIG", 22),
   (strB "NETWORK", 23), (strB "SECURITY", 24), (strB "LOG", 25)]

/-- Name resolution as performed by `build_message` (src/main.py:617-619):
`TABLE.get(name.upper(), token_id(name))` — uppercase the name (no strip),
take the registered id if present, else the CRC32 hash of the
lowercased-and-stripped name. -/
def resolveName (table : List (ByteStr × Nat)) (name : ByteStr) : Nat :=
  match table.lookup (upperB name) with
  | some i => i
  | none => token_id name

/-- A Python `JsonVal` parameter value: `str | int | float | bool | None`
(src/main.py:276), with `float` modelled as a rational. -/
inductive Val where
  | vStr (s : ByteStr)
  | vInt (i : Int)
  | vFloat (q : ℚ)
  | vBool (b : Bool)
  | vNull
deriving DecidableEq

/-- Truncation of a rational toward zero, the behaviour of Python
`int(float)`. -/
def ratTrunc (q : ℚ) : Int := q.num.tdiv q.den

/-- Round half to even, the behaviour of Python `round()`.  The floor is
computed as `num.fdiv den` to keep the definition kernel-executable. -/
def pyRound (q : ℚ) : Int :=
  let f := q.num.fdiv q.den
  let r := q - (f : ℚ)
  if r < 1/2 then f
  else if 1/2 < r then f + 1
  else if f % 2 = 0 then f else f + 1

/-- Decimal digits of a natural number, as ASCII bytes. -/
def natToDecB (n : Nat) : ByteStr := (Nat.toDigits 10 n).map Char.toNat

/-- Python `str(int)`. -/
def intToDecB (i : Int) : ByteStr :=
  if i < 0 then 45 :: natToDecB i.natAbs else natToDecB i.toNat

/-- Python `str()` on a parameter value.  Integers, booleans, `None` and
strings are rendered exactly; for a float the decimal rendering of the
rational is used when the denominator is a power of 2 times a power of 5
(every actual binary float satisfies this), else `num/den`. -/
def pyStr : Val → ByteStr
  | .vStr s => s
  | .vInt i => intToDecB i
  | .vBool true => strB "True"
  | .vBool false => strB "False"
  | .vNull => strB "None"
  | .vFloat q => decimalRepr q
where
  /-- Multiplicity of `p` in `n`, computed with explicit fuel. -/
  facCount (p : Nat) : Nat → Nat → Nat
    | _, 0 => 0
    | n, fuel + 1 =>
      if 1 < p ∧ 0 < n ∧ n % p = 0 then facCount p (n / p) fuel + 1 else 0
  /-- Decimal rendering of a rational with 10-smooth denominator, in the
  shape Python gives for such float values, e.g. `0.2`, `2.0`, `-1.5`. -/
  decimalRepr (q : ℚ) : ByteStr :=
    let sign : ByteStr := if q < 0 then [45] else []
    let n := q.num.natAbs
    let d := q.den
    let e2 := facCount 2 d d
    let e5 := facCount 5 d d
    if d = 2 ^ e2 * 5 ^ e5 then
      let k := max e2 e5
      let scaled := n * (2 ^ (k - e2) * 5 ^ (k - e5))
      let ip := scaled / 10 ^ k
      let fp := scaled % 10 ^ k
      let fracDigits :=
        if k = 0 then strB "0"
        else (List.replicate (k - (natToDecB fp).length) 48) ++ natToDecB fp
      sign ++ natToDecB ip ++ [46] ++ (if k = 0 then strB "0" else dropTrailingZeros fracDigits)
    else sign ++ natToDecB n ++ [47] ++ natToDecB d
  dropTrailingZeros (s : ByteStr) : ByteStr :=
    let t := (s.reverse.dropWhile (fun b => b = 48)).reverse
    if t = [] then [48] else t

/-- Python truthiness of a parameter value (`1 if val else 0`). -/
def pyTruthy : Val → Bool
  | .vStr s => s ≠ []
  | .vInt i => i ≠ 0
  | .vFloat q => q ≠ 0
  | .vBool b => b
  | .vNull => false

/-- Python `int(val)` on a parameter value: ints pass through, floats
truncate toward zero, booleans become 0/1, numeric strings are parsed,
everything else raises. -/
def pyInt : Val → Except String Int
  | .vInt i => .ok i
  | .vFloat q => .ok (ratTrunc q)
  | .vBool b => .ok (if b then 1 else 0)
  | .vStr s => parseIntB (stripB s)
  | .vNull => .error "int() argument must not be None"
where
  digitsVal : List Nat → Option Nat
    | [] => none
    | l => l.foldl (fun acc b =>
        match acc with
        | none => none
        | some n => if 48 ≤ b ∧ b ≤ 57 then some (n * 10 + (b - 48)) else none)
        (some 0)
  parseIntB (s : ByteStr) : Except String Int :=
    match s with
    | 45 :: rest => match digitsVal rest with
      | some n => .ok (-(n : Int))
      | none => .error "invalid literal for int()"
    | 43 :: rest => match digitsVal rest with
      | some n => .ok (n : Int)
      | none => .error "invalid literal for int()"
    | _ => match digitsVal s with
      | some n => .ok (n : Int)
      | none => .error "invalid literal for int()"

/-- Python `float(val)` on a parameter value: numbers pass through,
booleans become 0/1, decimal strings are parsed, everything else raises. -/
def pyFloat : Val → Except String ℚ
  | .vFloat q => .ok q
  | .vInt i => .ok (i : ℚ)
  | .vBool b => .ok (if b then 1 else 0)
  | .vStr s => parseFloatB (stripB s)
  | .vNull => .error "float() argument must not be None"
where
  parseFloatB (s : ByteStr) : Except String ℚ :=
    let core (t : List Nat) : Option ℚ :=
      match t.splitOn 46 with
      | [ip] => (pyInt.digitsVal ip).map (fun n => (n : ℚ))
      | [ip, fp] =>
        match pyInt.digitsVal ip, pyInt.digitsVal fp with
        | some n, some m => some ((n : ℚ) + (m : ℚ) / (10 ^ fp.length : ℚ))
        | _, _ => none
      | _ => none
    match s with
    | 45 :: rest => match core rest with
      | some q => .ok (-q)
      | none => .error "could not convert string to float"
    | 43 :: rest => match core rest with
      | some q => .ok q
      | none => .error "could not convert string to float"
    | _ => match core s with
      | some q => .ok q
      | none => .error "could not convert string to float"

/-- `to_fixed_u32` (src/main.py:213-215): `u32(int(round(x * scale)))`. -/
def to_fixed_u32 (x : ℚ) (scale : Int) : Nat := u32I (pyRound (x * scale))

/-- `from_fixed_u32` (src/main.py:217-219). -/
def from_fixed_u32 (n : Nat) (scale : Int) : ℚ := (u32 n : ℚ) / (scale : ℚ)

/-- The `ParamType` literal (src/main.py:237). -/
inductive PType where
  | pInt | pFloat | pBool | pString | pId | pHash | pAddress
  | pAmount | pPercent | pTimestamp
deriving DecidableEq

/-- `ParamSpec` (src/main.py:239-253).  `scale` is `Optional[int]` with
default `1_000_000`; `description` is display-only and omitted. -/
structure ParamSpec where
  name : ByteStr
  type : PType
  scale : Option Int := some 1000000
  min_value : Option ℚ := none
  max_value : Option ℚ := none
  required : Bool := true
deriving DecidableEq

/-- A registered schema: the ordered parameter specs for a `(verb_id,
object_id)` pair (src/main.py:255-270).  Free-form `description`, `examples`
and `tags` carry no codec behaviour and are omitted. -/
structure SchemaReg where
  params : List ParamSpec
deriving DecidableEq

/-- The `SCHEMAS` table (src/main.py:270), passed explicitly. -/
abbrev SchemaTable := List ((Nat × Nat) × SchemaReg)

/-- `spec.scale or 1_000_000`: Python `or` takes the default when `scale`
is `None` or `0`. -/
def effScale (s : Option Int) : Int :=
  match s with
  | none => 1000000
  | some v => if v = 0 then 1000000 else v

/-- `params.get(spec.name)` followed by the `val is None` test
(src/main.py:520-521): a key that is absent, or present with value `None`,
both read as missing. -/
def pyGet (params : List (ByteStr × Val)) (name : ByteStr) : Option Val :=
  match params.lookup name with
  | some .vNull => none
  | some v => some v
  | none => none

/-- The per-type slot encoding of a supplied value
(src/main.py:527-545). -/
def typeEncode (spec : ParamSpec) (v : Val) : Except String Nat :=
  match spec.type with
  | .pInt => (pyInt v).map u32I
  | .pFloat => (pyFloat v).map (fun q => to_fixed_u32 q (effScale spec.scale))
  | .pBool => .ok (if pyTruthy v then 1 else 0)
  | .pPercent => (pyFloat v).map (fun q => u32I (ratTrunc (q * 10000)))
  | .pAmount => (pyFloat v).map (fun q => to_fixed_u32 q 1000000)
  | .pTimestamp => (pyInt v).map u32I
  | .pString => .ok (token_id (pyStr v))
  | .pId => .ok (token_id (pyStr v))
  | .pHash => .ok (token_id (pyStr v))
  | .pAddress => .ok (token_id (pyStr v))

/-- `slots[i] < spec.min_value` (src/main.py:548), the encoded integer
against the declared bound. -/
def belowMin (spec : ParamSpec) (s : Nat) : Bool :=
  match spec.min_value with
  | some m => decide ((s : ℚ) < m)
  | none => false

/-- `slots[i] > spec.max_value` (src/main.py:550). -/
def aboveMax (spec : ParamSpec) (s : Nat) : Bool :=
  match spec.max_value with
  | some m => decide ((s : ℚ) > m)
  | none => false

/-- The constraint checks applied after encoding (src/main.py:547-551). -/
def checkBounds (spec : ParamSpec) (s : Nat) : Except String Nat :=
  if belowMin spec s then .error "below minimum value"
  else if aboveMax spec s then .error "above maximum value"
  else .ok s

/-- One iteration of the schema-encoding loop (src/main.py:519-551):
missing required value raises, missing optional value leaves the slot 0
(and skips the bound checks via `continue`), a supplied value is
type-encoded and then bound-checked. -/
def encodeSpecSlot (spec : ParamSpec) (params : List (ByteStr × Val)) :
    Except String Nat :=
  match pyGet params spec.name with
  | none => if spec.required then .error "Required parameter missing" else .ok 0
  | some v => (typeEncode spec v).bind (checkBounds spec)

/-- Lexicographic order on byte strings (Python `str` comparison,
restricted to ASCII where code points and bytes agree). -/
def lexLe : ByteStr → ByteStr → Bool
  | [], _ => true
  | _ :: _, [] => false
  | a :: as, b :: bs =>
    if a < b then true else if b < a then false else lexLe as bs

/-- Ascending insertion into a key-sorted association list. -/
def insertSorted (x : ByteStr × Val) :
    List (ByteStr × Val) → List (ByteStr × Val)
  | [] => [x]
  | y :: ys => if lexLe y.1 x.1 then y :: insertSorted x ys else x :: y :: ys

/-- `sorted(params.items())` (src/main.py:556); dict keys are unique so
sorting by key alone agrees with Python tuple comparison. -/
def sortByKey (l : List (ByteStr × Val)) : List (ByteStr × Val) :=
  l.foldr insertSorted []

/-- One slot of the generic (schema-less) encoding (src/main.py:558-565):
booleans 0/1, floats fixed-point ×1e6, ints passed through, everything
else hashed; each appended slot is masked with `u32`. -/
def genericEnc : Val → Nat
  | .vBool b => u32 (if b then 1 else 0)
  | .vFloat q => u32 (to_fixed_u32 q 1000000)
  | .vInt i => u32I i
  | .vStr s => u32 (token_id (pyStr (.vStr s)))
  | .vNull => u32 (token_id (pyStr .vNull))

/-- `a, b, c = slots` after zero-padding to three entries. -/
def padTo3 (l : List Nat) : Nat × Nat × Nat :=
  (l.getD 0 0, l.getD 1 0, l.getD 2 0)

/-- `NLC9Codec.encode_params` (src/main.py:506-570).  An empty (or absent)
parameter dict short-circuits to `(0, 0, 0)` before any schema is
consulted; otherwise a registered schema drives per-spec encoding with
validation, and an unregistered pair falls back to the generic encoding of
the first three parameters sorted by name. -/
def encode_params (schemas : SchemaTable) (verb_id obj_id : Nat)
    (params : List (ByteStr × Val)) : Except String (Nat × Nat × Nat) :=
  if params.isEmpty then .ok (0, 0, 0)
  else
    match schemas.lookup (verb_id, obj_id) with
    | some schema =>
      ((schema.params.take 3).mapM (fun spec => encodeSpecSlot spec params)).map padTo3
    | none =>
      .ok (padTo3 (((sortByKey params).take 3).map (fun p => genericEnc p.2)))

/-- An encode request (src/main.py:278-287).  The `timestamp` and
`correlation_id` defaults (`time.time()` and `secrets.randbits(32)`) are
nondeterministic inputs, modelled as supplied values; an absent or `None`
params dict is the empty list (both read as falsy). -/
structure EncodeReq where
  verb : ByteStr
  object : ByteStr
  params : List (ByteStr × Val) := []
  flags : List ByteStr := []
  domain : Option ByteStr := none
  timestamp : Int := 0
  correlation_id : Int := 0

/-- `Config.VERSION` (src/main.py:61). -/
def VERSION : Int := 2

/-- `NLC9Codec.build_message` (src/main.py:614-648): resolve ids, encode
parameters, pack the header, append timestamp and correlation id, and
close the frame with the CRC32 of the first eight words plus a zero ninth
word.  Returns the nine words (display-only header metadata omitted). -/
def build_message (verbs objs : List (ByteStr × Nat)) (schemas : SchemaTable)
    (req : EncodeReq) : Except String (List Nat) := do
  let verb_id := resolveName verbs req.verb
  let obj_id := resolveName objs req.object
  let (a, b, c) ← encode_params schemas verb_id obj_id req.params
  let corr := u32I req.correlation_id
  let bits ← flags_to_bits req.flags
  let hdr ← pack_header VERSION (bits : Int) (domain_id16 req.domain : Int)
  let first8 := [hdr, verb_id, obj_id, a, b, c, u32I req.timestamp, corr]
  let bytes ← pack9 (first8 ++ [0])
  return (first8 ++ [crc32_u32 bytes]).map u32

/-- A decoded parameter value (src/main.py:572-612): words pass through as
integers, scaled types become rationals, booleans test bit 0, and hashed
types surface as the opaque string `ID#<word>`. -/
inductive DVal where
  | dNat (n : Nat)
  | dFloat (q : ℚ)
  | dBool (b : Bool)
  | dStr (s : ByteStr)
deriving DecidableEq

/-- The per-type slot decoding (src/main.py:582-603). -/
def typeDecode (spec : ParamSpec) (w : Nat) : DVal :=
  match spec.type with
  | .pInt => .dNat w
  | .pFloat => .dFloat (from_fixed_u32 w (effScale spec.scale))
  | .pBool => .dBool (w &&& 1 = 1)
  | .pPercent => .dFloat ((w : ℚ) / 10000)
  | .pAmount => .dFloat ((w : ℚ) / 1000000)
  | .pTimestamp => .dNat w
  | .pString => .dStr (strB "ID#" ++ natToDecB w)
  | .pId => .dStr (strB "ID#" ++ natToDecB w)
  | .pHash => .dStr (strB "ID#" ++ natToDecB w)
  | .pAddress => .dStr (strB "ID#" ++ natToDecB w)

/-- `NLC9Codec.decode_params` (src/main.py:572-612). -/
def decode_params (schemas : SchemaTable) (verb_id obj_id a b c : Nat) :
    List (ByteStr × DVal) :=
  match schemas.lookup (verb_id, obj_id) with
  | some schema =>
    ((schema.params.take 3).zip [a, b, c]).map
      (fun p => (p.1.name, typeDecode p.1 p.2))
  | none =>
    [(strB "paramA", .dNat a), (strB "paramB", .dNat b), (strB "paramC", .dNat c)]

/-- The parts of `DecodeResponse` (src/main.py:308-315) the codec computes
(display-only name lookups and transcodings omitted). -/
structure DecodeResp where
  numbers : List Int
  version : Nat
  flagsBits : Nat
  domain : Nat
  verb_id : Nat
  object_id : Nat
  params : List (ByteStr × DVal)
  timestamp : Nat
  correlation_id : Nat
  checksum_ok : Bool
deriving DecidableEq

/-- `NLC9Codec.parse_message` (src/main.py:650-704): length-check, mask the
nine words, recompute the checksum over the first eight words with a zero
ninth word, and report `checksum_ok` as a flag rather than failing. -/
def parse_message (schemas : SchemaTable) (nums : List Int) :
    Except String DecodeResp :=
  if nums.length = 9 then
    let ws := nums.map u32I
    let hdr := ws.getD 0 0
    let v_id := ws.getD 1 0
    let o_id := ws.getD 2 0
    let a := ws.getD 3 0
    let b := ws.getD 4 0
    let c := ws.getD 5 0
    let ts := ws.getD 6 0
    let corr := ws.getD 7 0
    let crc := ws.getD 8 0
    let h3 := unpack_header hdr
    match pack9 [hdr, v_id, o_id, a, b, c, ts, corr, 0] with
    | .error e => .error e
    | .ok bytes =>
      .ok ⟨nums, h3.1, h3.2.1, h3.2.2, v_id, o_id,
           decode_params schemas v_id o_id a b c, ts, corr,
           crc32_u32 bytes == crc⟩
  else .error "Need exactly 9 numbers"

/-! ## Message router (src/main.py:321-427)

Router state is shared mutable dictionaries; each operation is modelled as
a pure function of the piece of state it touches, with the current time an
explicit input. -/

/-- A router-internal `Message` (src/main.py:321-332), reduced to the
fields the modelled operations read, plus an id for distinguishability. -/
structure Msg where
  mid : ByteStr
  timestamp : ℚ
  priority : Int
  ttl : Int
deriving DecidableEq

/-- `Message.is_expired` (src/main.py:334-335):
`time.time() - self.timestamp > self.ttl`. -/
def isExpired (now : ℚ) (m : Msg) : Bool := decide (now - m.timestamp > (m.ttl : ℚ))

/-- `MessageRouter.get_messages` (src/main.py:364-372): pop from the front
while fewer than `limit` messages have been collected, discarding expired
messages.  Returns the collected messages and the remaining queue. -/
def get_messages (queue : List Msg) (limit : Nat) (now : ℚ) :
    List Msg × List Msg :=
  match queue with
  | [] => ([], [])
  | m :: rest =>
    if limit = 0 then ([], m :: rest)
    else if isExpired now m then get_messages rest limit now
    else
      let p := get_messages rest (limit - 1) now
      (m :: p.1, p.2)

/-- One `vote_counts[key] += 1` step of the tally loop
(src/main.py:389-392), preserving dict first-insertion order. -/
def bumpTally {V : Type} [DecidableEq V] (acc : List (V × Nat)) (v : V) :
    List (V × Nat) :=
  match acc with
  | [] => [(v, 1)]
  | (w, c) :: rest =>
    if v = w then (w, c + 1) :: rest else (w, c) :: bumpTally rest v

/-- The tally built by iterating over `votes.values()` in insertion
order. -/
def tallyAux {V : Type} [DecidableEq V] :
    List V → List (V × Nat) → List (V × Nat)
  | [], acc => acc
  | v :: rest, acc => tallyAux rest (bumpTally acc v)

/-- `MessageRouter.check_consensus` (src/main.py:382-399): tally the
canonicalized votes and return the first vote value whose share of the
total meets the threshold; `None` when nothing clears the bar or there are
no votes.  `votes` is the action's voter → vote dict as an insertion-order
association list; JSON canonicalization is value equality here. -/
def check_consensus {V : Type} [DecidableEq V]
    (votes : List (ByteStr × V)) (threshold : ℚ) : Option V :=
  if votes.isEmpty then none
  else
    let vals := votes.map Prod.snd
    let counts := tallyAux vals []
    let total := votes.length
    (counts.find? (fun p => (p.2 : ℚ) / (total : ℚ) ≥ threshold)).map Prod.fst

/-- `Config.RATE_LIMIT_MESSAGES` (src/main.py:66). -/
def RATE_LIMIT_MESSAGES : Nat := 100

/-- `Config.RATE_LIMIT_WINDOW` (src/main.py:67). -/
def RATE_LIMIT_WINDOW : ℚ := 60

/-- `MessageRouter.check_rate_limit` (src/main.py:401-417): prune the
client's timestamps to the sliding window, reject if the pruned count has
reached the cap, else record `now` and allow.  Returns the decision and
the client's updated timestamp list. -/
def check_rate_limit (tsList : List ℚ) (now : ℚ) : Bool × List ℚ :=
  let pruned := tsList.filter (fun ts => now - RATE_LIMIT_WINDOW < ts)
  if pruned.length ≥ RATE_LIMIT_MESSAGES then (false, pruned)
  else (true, pruned ++ [now])

/-- The generic per-value slot encoding as the (amended) specification
words it: booleans as 0/1, integers reduced mod 2^32 (two's complement for
negatives), floats as fixed-point ×1,000,000, and every non-numeric value
as the CRC32 hash of the lowercased trimmed string form, masked to 32
bits.  Stated arithmetically, to be compared with `genericEnc` from the
source. -/
def genericSlotSpec : Val → Nat
  | .vBool b => if b then 1 else 0
  | .vInt i => (i % 4294967296).toNat
  | .vFloat q => (pyRound (q * 1000000) % 4294967296).toNat
  | .vStr s => crc32 (lowerB (stripB s)) % 2 ^ 32
  | .vNull => crc32 (lowerB (stripB (strB "None"))) % 2 ^ 32

/-! ## C3: identifier resolution -/

lemma upperByte_lowerByte (b : Nat) : upperByte (lowerByte b) = upperByte b := by
  simp only [lowerByte, upperByte]
  split_ifs <;> omega

lemma isSpace_lowerByte (b : Nat) : isSpaceByte (lowerByte b) = isSpaceByte b := by
  simp only [lowerByte, isSpaceByte]
  split_ifs with h
  · simp only [decide_eq_decide]
    omega
  · rfl

lemma upperB_lowerB (l : ByteStr) : upperB (lowerB l) = upperB l := by
  have h : upperByte ∘ lowerByte = upperByte := funext upperByte_lowerByte
  rw [upperB, lowerB, List.map_map, h, upperB]

lemma stripB_lowerB (l : ByteStr) : stripB (lowerB l) = lowerB (stripB l) := by
  have hpred : (isSpaceByte ∘ lowerByte) = isSpaceByte := funext isSpace_lowerByte
  rw [stripB, stripB, lowerB, lowerB, List.dropWhile_map, hpred,
    ← List.map_reverse, List.dropWhile_map, hpred, ← List.map_reverse]

/-- C3 (amended): identifier resolution is a pure function, independent of
the case of the input; a name whose uppercase form is registered resolves
to the registered id; any other name (including a seeded name with
surrounding whitespace, since the lookup uppercases but does not strip)
resolves to the CRC32 of its lowercased, stripped form. -/
theorem claim3_resolution (table : List (ByteStr × Nat)) (name other : ByteStr) :
    (lowerB other = lowerB name →
      resolveName table other = resolveName table name) ∧
    (∀ i, table.lookup (upperB name) = some i → resolveName table name = i) ∧
    (table.lookup (upperB name) = none →
      resolveName table name = crc32_u32 (lowerB (stripB name))) := by
  refine ⟨?_, ?_, ?_⟩
  · intro h
    have hupper : upperB other = upperB name := by
      rw [← upperB_lowerB other, ← upperB_lowerB name, h]
    have htoken : token_id other = token_id name := by
      unfold token_id
      rw [← stripB_lowerB, ← stripB_lowerB, h]
    unfold resolveName
    rw [hupper, htoken]
  · intro i h
    unfold resolveName
    rw [h]
  · intro h
    unfold resolveName
    rw [h]
    rfl

/-- C3 counterexample to the claim as stated: `" PING "` differs from the
seeded name `"PING"` (id 1) only by surrounding whitespace, yet it does
not resolve to the seeded id — the lookup key is uppercased but not
stripped, so it falls through to the hash. -/
theorem claim3_counterexample :
    VERBS0.lookup (upperB (strB "PING")) = some 1 ∧
    stripB (strB " PING ") = strB "PING" ∧
    resolveName VERBS0 (strB " PING ") ≠ 1 := by decide

/-- C3 witness: a pure case variant of a seeded verb resolves to the
seeded id, and an unregistered name resolves to its hash. -/
theorem claim3_resolution_witness :
    resolveName VERBS0 (strB "pInG") = resolveName VERBS0 (strB "PING") ∧
    resolveName VERBS0 (strB "PING") = 1 ∧
    resolveName VERBS0 (strB "warble") =
      crc32_u32 (lowerB (stripB (strB "warble"))) :=
  ⟨(claim3_resolution VERBS0 (strB "PING") (strB "pInG")).1 (by decide),
   (claim3_resolution VERBS0 (strB "PING") (strB "PING")).2.1 1 (by decide),
   (claim3_resolution VERBS0 (strB "warble") (strB "warble")).2.2 (by decide)⟩

/-! ## Arithmetic helper lemmas -/

lemma u32_eq_mod (n : Nat) : u32 n = n % 2 ^ 32 := by
  rw [u32, show (4294967295 : Nat) = 2 ^ 32 - 1 from by norm_num,
    Nat.and_pow_two_sub_one_eq_mod]

lemma u32_u32 (n : Nat) : u32 (u32 n) = u32 n := by
  simp [u32_eq_mod, Nat.mod_mod_of_dvd _ dvd_rfl]

lemma u32_lt (n : Nat) : u32 n < 2 ^ 32 := by
  rw [u32_eq_mod]; exact Nat.mod_lt _ (by norm_num)

lemma u32_of_lt {n : Nat} (h : n < 2 ^ 32) : u32 n = n := by
  rw [u32_eq_mod]; exact Nat.mod_eq_of_lt h

lemma u32I_ofNat (n : Nat) : u32I (Int.ofNat n) = u32 n := by
  rw [u32_eq_mod, u32I, show (2 : Nat) ^ 32 = 4294967296 from by norm_num]
  show ((n : Int) % 4294967296).toNat = n % 4294967296
  omega

lemma u32I_natCast (n : Nat) : u32I (n : Int) = u32 n := u32I_ofNat n

lemma u32I_lt (n : Int) : u32I n < 2 ^ 32 := by
  rw [u32I]
  have h1 : n % 4294967296 < 4294967296 := Int.emod_lt_of_pos n (by norm_num)
  omega

lemma u32_u32I (n : Int) : u32 (u32I n) = u32I n := u32_of_lt (u32I_lt n)

lemma crc32_u32_eq_mod (l : List Nat) : crc32_u32 l = crc32 l % 2 ^ 32 :=
  u32_eq_mod (crc32 l)

lemma u32_crc32_u32 (l : List Nat) : u32 (crc32_u32 l) = crc32_u32 l :=
  u32_u32 (crc32 l)

lemma u32_zero : u32 0 = 0 := by decide

/-! ## C6: header packing round-trip and range validation -/

lemma testBit_high_false {x n i : Nat} (hx : x < 2 ^ n) (h : n ≤ i) :
    x.testBit i = false :=
  Nat.testBit_lt_two_pow (lt_of_lt_of_le hx (Nat.pow_le_pow_right (by norm_num) h))

lemma pack_core_unpack (v f d : Nat) (hv : v < 16) (hf : f < 4096)
    (hd : d < 65536) :
    unpack_header (((v &&& 0xF) <<< 28) ||| ((f &&& 0xFFF) <<< 16) |||
      (d &&& 0xFFFF)) = (v, f, d) := by
  have p16 : (2 : Nat) ^ 4 = 16 := by norm_num
  have p4096 : (2 : Nat) ^ 12 = 4096 := by norm_num
  have p65536 : (2 : Nat) ^ 16 = 65536 := by norm_num
  have hv2 : v < 2 ^ 4 := by omega
  have hf2 : f < 2 ^ 12 := by omega
  have hd2 : d < 2 ^ 16 := by omega
  have e4 : (15 : Nat) = 2 ^ 4 - 1 := by norm_num
  have e12 : (4095 : Nat) = 2 ^ 12 - 1 := by norm_num
  have e16 : (65535 : Nat) = 2 ^ 16 - 1 := by norm_num
  have hv' : v &&& 0xF = v := by
    rw [show (0xF : Nat) = 2 ^ 4 - 1 from by norm_num]
    exact Nat.and_pow_two_sub_one_of_lt_two_pow hv2
  have hf' : f &&& 0xFFF = f := by
    rw [show (0xFFF : Nat) = 2 ^ 12 - 1 from by norm_num]
    exact Nat.and_pow_two_sub_one_of_lt_two_pow hf2
  have hd' : d &&& 0xFFFF = d := by
    rw [show (0xFFFF : Nat) = 2 ^ 16 - 1 from by norm_num]
    exact Nat.and_pow_two_sub_one_of_lt_two_pow hd2
  rw [hv', hf', hd', unpack_header]
  refine Prod.ext ?_ (Prod.ext ?_ ?_)
  · show ((v <<< 28 ||| f <<< 16 ||| d) >>> 28) &&& 15 = v
    refine Nat.eq_of_testBit_eq fun i => ?_
    by_cases hi : i < 4
    · rw [e4]
      simp only [Nat.testBit_land, Nat.testBit_two_pow_sub_one,
        Nat.testBit_shiftRight, Nat.testBit_lor, Nat.testBit_shiftLeft]
      have ha : 28 + i - 28 = i := by omega
      have hb : 28 + i - 16 = 12 + i := by omega
      have hge1 : 28 ≤ 28 + i := by omega
      have hge2 : 16 ≤ 28 + i := by omega
      have h1 : f.testBit (12 + i) = false := testBit_high_false hf2 (by omega)
      have h2 : d.testBit (28 + i) = false := testBit_high_false hd2 (by omega)
      rw [ha, hb]
      simp [h1, h2, hi, hge1, hge2]
    · have h1 : v.testBit i = false := testBit_high_false hv2 (by omega)
      have h15 : Nat.testBit 15 i = false :=
        testBit_high_false (show (15 : Nat) < 2 ^ 4 from by norm_num) (by omega)
      simp [Nat.testBit_land, h15, h1]
  · show ((v <<< 28 ||| f <<< 16 ||| d) >>> 16) &&& 4095 = f
    refine Nat.eq_of_testBit_eq fun i => ?_
    by_cases hi : i < 12
    · rw [e12]
      simp only [Nat.testBit_land, Nat.testBit_two_pow_sub_one,
        Nat.testBit_shiftRight, Nat.testBit_lor, Nat.testBit_shiftLeft]
      have ha : ¬ (28 ≤ 16 + i) := by omega
      have hb : 16 + i - 16 = i := by omega
      have hge2 : 16 ≤ 16 + i := by omega
      have h2 : d.testBit (16 + i) = false := testBit_high_false hd2 (by omega)
      rw [hb]
      simp [ha, h2, hi, hge2]
    · have h1 : f.testBit i = false := testBit_high_false hf2 (by omega)
      have h4095 : Nat.testBit 4095 i = false :=
        testBit_high_false (show (4095 : Nat) < 2 ^ 12 from by norm_num) (by omega)
      simp [Nat.testBit_land, h4095, h1]
  · show (v <<< 28 ||| f <<< 16 ||| d) &&& 65535 = d
    refine Nat.eq_of_testBit_eq fun i => ?_
    by_cases hi : i < 16
    · rw [e16]
      simp only [Nat.testBit_land, Nat.testBit_two_pow_sub_one,
        Nat.testBit_lor, Nat.testBit_shiftLeft]
      have ha : ¬ (28 ≤ i) := by omega
      have hb : ¬ (16 ≤ i) := by omega
      simp [ha, hb, hi]
    · have h1 : d.testBit i = false := testBit_high_false hd2 (by omega)
      have h65535 : Nat.testBit 65535 i = false :=
        testBit_high_false (show (65535 : Nat) < 2 ^ 16 from by norm_num) (by omega)
      simp [Nat.testBit_land, h65535, h1]

/-- C6: for all version in [0,15], flags in [0,4095], domain in [0,65535],
`unpack_header` inverts `pack_header` exactly, and any out-of-range input
(including negative Python ints) makes `pack_header` fail with a
validation error rather than truncate. -/
theorem claim6_header_roundtrip :
    (∀ v f d : Nat, v ≤ 15 → f ≤ 4095 → d ≤ 65535 →
      ∃ h, pack_header (v : Int) (f : Int) (d : Int) = .ok h ∧
        unpack_header h = (v, f, d)) ∧
    (∀ v f d : Int,
      (v < 0 ∨ 15 < v ∨ f < 0 ∨ 4095 < f ∨ d < 0 ∨ 65535 < d) →
      ∃ e, pack_header v f d = .error e) := by
  constructor
  · intro v f d hv hf hd
    refine ⟨((v &&& 0xF) <<< 28) ||| ((f &&& 0xFFF) <<< 16) ||| (d &&& 0xFFFF),
      ?_, ?_⟩
    · rw [pack_header]
      rw [if_pos ⟨Int.natCast_nonneg v, by exact_mod_cast hv⟩]
      rw [if_pos ⟨Int.natCast_nonneg f, by exact_mod_cast (show f < 4096 by omega)⟩]
      rw [if_pos ⟨Int.natCast_nonneg d, by exact_mod_cast hd⟩]
      simp [Int.toNat_ofNat]
    · exact pack_core_unpack v f d (by omega) (by omega) (by omega)
  · intro v f d hviol
    rw [pack_header]
    split
    · split
      · split
        · omega
        · exact ⟨_, rfl⟩
      · exact ⟨_, rfl⟩
    · exact ⟨_, rfl⟩

/-- C6 witness: a concrete in-range round trip and a concrete rejection. -/
theorem claim6_header_roundtrip_witness :
    (∃ h, pack_header 2 5 7 = .ok h ∧ unpack_header h = (2, 5, 7)) ∧
    (∃ e, pack_header 16 0 0 = .error e) :=
  ⟨claim6_header_roundtrip.1 2 5 7 (by decide) (by decide) (by decide),
   claim6_header_roundtrip.2 16 0 0 (by omega)⟩

/-! ## C8: sliding-window rate limiting -/

/-- C8: `check_rate_limit` prunes to the window and allows, recording
`now`, exactly when the pruned count is below the cap; rejection leaves
the pruned list unchanged; a client with a full window of 100 in-window
timestamps is rejected, and a client all of whose timestamps have left
the window is allowed again. -/
theorem claim8_rate_limit (tsList : List ℚ) (now : ℚ) :
    ((check_rate_limit tsList now).1 = true ↔
      (tsList.filter (fun ts => now - RATE_LIMIT_WINDOW < ts)).length <
        RATE_LIMIT_MESSAGES) ∧
    ((check_rate_limit tsList now).1 = true →
      (check_rate_limit tsList now).2 =
        tsList.filter (fun ts => now - RATE_LIMIT_WINDOW < ts) ++ [now]) ∧
    ((check_rate_limit tsList now).1 = false →
      (check_rate_limit tsList now).2 =
        tsList.filter (fun ts => now - RATE_LIMIT_WINDOW < ts)) ∧
    (tsList.length = RATE_LIMIT_MESSAGES →
      (∀ t ∈ tsList, now - RATE_LIMIT_WINDOW < t) →
      (check_rate_limit tsList now).1 = false) ∧
    ((∀ t ∈ tsList, t ≤ now - RATE_LIMIT_WINDOW) →
      (check_rate_limit tsList now).1 = true) := by
  by_cases hc :
    (tsList.filter (fun ts => now - RATE_LIMIT_WINDOW < ts)).length ≥
      RATE_LIMIT_MESSAGES
  · have hres : check_rate_limit tsList now =
        (false, tsList.filter (fun ts => now - RATE_LIMIT_WINDOW < ts)) := by
      simp only [check_rate_limit]
      rw [if_pos hc]
    rw [hres]
    refine ⟨by simp; omega, by simp, fun _ => rfl, fun _ _ => rfl, ?_⟩
    intro hall
    have hfilter : tsList.filter (fun ts => now - RATE_LIMIT_WINDOW < ts) = [] :=
      List.filter_eq_nil_iff.2
        (fun a ha => by simpa using not_lt.2 (hall a ha))
    rw [hfilter] at hc
    simp [RATE_LIMIT_MESSAGES] at hc
  · have hres : check_rate_limit tsList now =
        (true, tsList.filter (fun ts => now - RATE_LIMIT_WINDOW < ts) ++ [now]) := by
      simp only [check_rate_limit]
      rw [if_neg hc]
    rw [hres]
    refine ⟨by simp; omega, fun _ => rfl, by simp, ?_, fun _ => rfl⟩
    intro hlen hall
    have hfilter : tsList.filter (fun ts => now - RATE_LIMIT_WINDOW < ts) = tsList :=
      List.filter_eq_self.2 (fun a ha => by simpa using hall a ha)
    rw [hfilter, hlen] at hc
    omega

/-- C8 witness: with an empty history the call is allowed and recorded;
with 100 in-window timestamps the 101st call is rejected. -/
theorem claim8_rate_limit_witness :
    (check_rate_limit [] 0).1 = true ∧
    (check_rate_limit (List.replicate 100 (1 : ℚ)) 2).1 = false :=
  ⟨(claim8_rate_limit [] 0).2.2.2.2 (by simp),
   (claim8_rate_limit (List.replicate 100 (1 : ℚ)) 2).2.2.2.1
     (by simp [RATE_LIMIT_MESSAGES])
     (by intro t ht; rw [List.eq_of_mem_replicate ht]; norm_num [RATE_LIMIT_WINDOW])⟩

/-! ## C9: queue draining with TTL expiry -/

/-- C9: `get_messages` splits the queue into a consumed prefix and the
untouched remainder; what it returns is exactly the non-expired part of
the consumed prefix in FIFO order (so expired messages encountered are
removed and discarded, never returned), and at most `limit` messages come
back. -/
theorem claim9_drain (queue : List Msg) (limit : Nat) (now : ℚ) :
    ∃ consumed,
      queue = consumed ++ (get_messages queue limit now).2 ∧
      (get_messages queue limit now).1 =
        consumed.filter (fun m => !(isExpired now m)) ∧
      (get_messages queue limit now).1.length ≤ limit ∧
      ∀ m ∈ (get_messages queue limit now).1, isExpired now m = false := by
  induction queue generalizing limit with
  | nil => exact ⟨[], by simp [get_messages]⟩
  | cons m rest ih =>
    by_cases h0 : limit = 0
    · subst h0
      exact ⟨[], by simp [get_messages]⟩
    · by_cases hexp : isExpired now m
      · obtain ⟨consumed, h1, h2, h3, h4⟩ := ih limit
        refine ⟨m :: consumed, ?_, ?_, ?_, ?_⟩
        · simp [get_messages, h0, hexp]; exact h1
        · simp [get_messages, h0, hexp, List.filter_cons, h2]
        · simpa [get_messages, h0, hexp] using h3
        · simpa [get_messages, h0, hexp] using h4
      · have hexp' : isExpired now m = false := by
          simpa using hexp
        obtain ⟨consumed, h1, h2, h3, h4⟩ := ih (limit - 1)
        refine ⟨m :: consumed, ?_, ?_, ?_, ?_⟩
        · simp [get_messages, h0, hexp']; exact h1
        · simp [get_messages, h0, hexp', List.filter_cons, h2]
        · have heq : (get_messages (m :: rest) limit now).1 =
              m :: (get_messages rest (limit - 1) now).1 := by
            simp [get_messages, h0, hexp']
          rw [heq]
          simp only [List.length_cons]
          omega
        · intro x hx
          simp [get_messages, h0, hexp'] at hx
          rcases hx with rfl | hx
          · exact hexp'
          · exact h4 x hx

/-! ## Except and list plumbing -/

lemma except_bind_error {α β : Type} {e : String} (f : α → Except String β) :
    (Except.error e : Except String α) >>= f = .error e := rfl

lemma except_bind_ok {α β : Type} (a : α) (f : α → Except String β) :
    (Except.ok a : Except String α) >>= f = f a := rfl

lemma except_map_error {α β : Type} {e : String} (f : α → β) :
    (Except.error e : Except String α).map f = .error e := rfl

lemma except_map_ok {α β : Type} (a : α) (f : α → β) :
    (Except.ok a : Except String α).map f = .ok (f a) := rfl

lemma mapM_error_of_mem {α β : Type} {f : α → Except String β} {l : List α}
    {x : α} (hx : x ∈ l) (he : ∃ e, f x = .error e) :
    ∃ e, l.mapM f = .error e := by
  induction l with
  | nil => cases hx
  | cons a t ih =>
    rcases List.mem_cons.1 hx with rfl | hx'
    · rcases he with ⟨e, he⟩
      exact ⟨e, by rw [List.mapM_cons, he]; rfl⟩
    · rcases ih hx' with ⟨e, he2⟩
      cases hfa : f a with
      | error e' => exact ⟨e', by rw [List.mapM_cons, hfa]; rfl⟩
      | ok b => exact ⟨e, by rw [List.mapM_cons, hfa, he2]; rfl⟩

lemma mapM_ok_zero {α : Type} {f : α → Except String Nat} {l : List α}
    (h : ∀ x ∈ l, f x = .ok 0) :
    l.mapM f = .ok (List.replicate l.length 0) := by
  induction l with
  | nil => rfl
  | cons a t ih =>
    have ha := h a (List.mem_cons_self a t)
    have ht := ih (fun x hx => h x (List.mem_cons_of_mem a hx))
    rw [List.mapM_cons, ha, ht]
    rfl

lemma encode_params_schema (schemas : SchemaTable) (vid oid : Nat)
    (params : List (ByteStr × Val)) (schema : SchemaReg)
    (hie : params.isEmpty = false)
    (hs : schemas.lookup (vid, oid) = some schema) :
    encode_params schemas vid oid params =
      ((schema.params.take 3).mapM (fun sp => encodeSpecSlot sp params)).map
        padTo3 := by
  unfold encode_params
  rw [hie]
  rw [if_neg (by simp : ¬ (false = true))]
  rw [hs]

lemma encode_params_generic (schemas : SchemaTable) (vid oid : Nat)
    (params : List (ByteStr × Val))
    (hie : params.isEmpty = false)
    (hnone : schemas.lookup (vid, oid) = none) :
    encode_params schemas vid oid params =
      .ok (padTo3 (((sortByKey params).take 3).map
        (fun p => genericEnc p.2))) := by
  unfold encode_params
  rw [hie]
  rw [if_neg (by simp : ¬ (false = true))]
  rw [hnone]

lemma padTo3_replicate_zero (n : Nat) :
    padTo3 (List.replicate n 0) = (0, 0, 0) := by
  have h : ∀ i, (List.replicate n (0 : Nat)).getD i 0 = 0 := by
    intro i
    rw [List.getD_eq_getElem?_getD, List.getElem?_replicate]
    split <;> rfl
  unfold padTo3
  rw [h 0, h 1, h 2]

/-! ## C2, C5, C10: schema-driven parameter validation -/

lemma encodeSpecSlot_missing_required {spec : ParamSpec}
    {params : List (ByteStr × Val)}
    (hreq : spec.required = true) (hmiss : pyGet params spec.name = none) :
    encodeSpecSlot spec params = .error "Required parameter missing" := by
  unfold encodeSpecSlot
  rw [hmiss]
  simp [hreq]

lemma encodeSpecSlot_missing_optional {spec : ParamSpec}
    {params : List (ByteStr × Val)}
    (hreq : spec.required = false) (hmiss : pyGet params spec.name = none) :
    encodeSpecSlot spec params = .ok 0 := by
  unfold encodeSpecSlot
  rw [hmiss]
  simp [hreq]

/-- C2 (amended): under a registered schema, a required spec whose name
has no value in a **non-empty** parameter dict makes encoding fail with a
validation error, and an absent optional spec encodes its slot as 0.  The
non-emptiness proviso is forced by the source: an empty (or absent)
parameter dict short-circuits `encode_params` to `(0,0,0)` before any
schema validation runs. -/
theorem claim2_required_missing (schemas : SchemaTable) (vid oid : Nat)
    (schema : SchemaReg) (params : List (ByteStr × Val)) (spec : ParamSpec)
    (hs : schemas.lookup (vid, oid) = some schema)
    (hmem : spec ∈ schema.params.take 3)
    (hreq : spec.required = true)
    (hmiss : pyGet params spec.name = none)
    (hne : params ≠ []) :
    (∃ e, encode_params schemas vid oid params = .error e) ∧
    (∀ (spec' : ParamSpec) (params' : List (ByteStr × Val)),
      spec'.required = false → pyGet params' spec'.name = none →
      encodeSpecSlot spec' params' = .ok 0) ∧
    (∀ (schemas' : SchemaTable) (vid' oid' : Nat),
      encode_params schemas' vid' oid' [] = .ok (0, 0, 0)) := by
  refine ⟨?_, fun s' p' h1 h2 => encodeSpecSlot_missing_optional h1 h2,
    fun _ _ _ => rfl⟩
  have hslot := encodeSpecSlot_missing_required hreq hmiss
  obtain ⟨e, he⟩ :=
    mapM_error_of_mem (f := fun sp => encodeSpecSlot sp params) hmem ⟨_, hslot⟩
  have hie : params.isEmpty = false := by simp [hne]
  exact ⟨e, by rw [encode_params_schema schemas vid oid params schema hie hs, he]; rfl⟩

/-- C2 counterexample to the claim as stated: a schema whose single spec is
required, and a request with an **empty** parameter dict (so no value for
that spec), yet parameter encoding succeeds with `(0,0,0)` instead of
failing. -/
theorem claim2_counterexample :
    (ParamSpec.mk (strB "x") .pInt (some 1000000) none none true) ∈
      (SchemaReg.mk [ParamSpec.mk (strB "x") .pInt (some 1000000) none none true]).params.take 3 ∧
    (ParamSpec.mk (strB "x") .pInt (some 1000000) none none true).required = true ∧
    pyGet [] (strB "x") = none ∧
    encode_params
      [((1, 1), SchemaReg.mk [ParamSpec.mk (strB "x") .pInt (some 1000000) none none true])]
      1 1 [] = .ok (0, 0, 0) :=
  ⟨by decide, rfl, rfl, rfl⟩

/-- C2 witness: a concrete non-empty request missing a required parameter
fails, and a concrete absent optional spec encodes as 0. -/
theorem claim2_required_missing_witness :
    (∃ e, encode_params
      [((1, 1), SchemaReg.mk [ParamSpec.mk (strB "x") .pInt (some 1000000) none none true])]
      1 1 [(strB "y", .vInt 5)] = .error e) ∧
    encodeSpecSlot (ParamSpec.mk (strB "x") .pInt (some 1000000) none none false) [] = .ok 0 := by
  have h := claim2_required_missing
    [((1, 1), SchemaReg.mk [ParamSpec.mk (strB "x") .pInt (some 1000000) none none true])]
    1 1
    (SchemaReg.mk [ParamSpec.mk (strB "x") .pInt (some 1000000) none none true])
    [(strB "y", .vInt 5)]
    (ParamSpec.mk (strB "x") .pInt (some 1000000) none none true)
    (by decide) (by decide) rfl (by decide) (by decide)
  exact ⟨h.1, h.2.1 _ _ rfl rfl⟩

/-- C5: for a supplied parameter value that type-encodes to slot value
`s`, encoding fails with a validation error exactly when `s` — the
encoded, post-scaling integer, not the caller's input — is below
`min_value` or above `max_value`, and otherwise the slot is `s`. -/
theorem claim5_encoded_bounds (spec : ParamSpec)
    (params : List (ByteStr × Val)) (v : Val) (s : Nat)
    (hget : pyGet params spec.name = some v)
    (henc : typeEncode spec v = .ok s) :
    ((∃ e, encodeSpecSlot spec params = .error e) ↔
      ((∃ m, spec.min_value = some m ∧ (s : ℚ) < m) ∨
       (∃ M, spec.max_value = some M ∧ M < (s : ℚ)))) ∧
    (¬ ((∃ m, spec.min_value = some m ∧ (s : ℚ) < m) ∨
        (∃ M, spec.max_value = some M ∧ M < (s : ℚ))) →
      encodeSpecSlot spec params = .ok s) := by
  have hslot : encodeSpecSlot spec params = checkBounds spec s := by
    unfold encodeSpecSlot
    rw [hget]
    show (typeEncode spec v).bind (checkBounds spec) = checkBounds spec s
    rw [henc]
    rfl
  have hbmi : belowMin spec s = true ↔
      ∃ m, spec.min_value = some m ∧ (s : ℚ) < m := by
    unfold belowMin
    rcases hmin : spec.min_value with _ | m <;> simp
  have hami : aboveMax spec s = true ↔
      ∃ M, spec.max_value = some M ∧ M < (s : ℚ) := by
    unfold aboveMax
    rcases hmax : spec.max_value with _ | M <;> simp [gt_iff_lt]
  constructor
  · rw [hslot]
    unfold checkBounds
    by_cases hbm : belowMin spec s
    · simp [hbm]
      exact Or.inl (hbmi.1 hbm)
    · by_cases ham : aboveMax spec s
      · simp [hbm, ham]
        exact Or.inr (hami.1 ham)
      · simp [hbm, ham]
        constructor
        · intro m hm
          by_contra hlt
          exact hbm (hbmi.2 ⟨m, hm, not_le.1 hlt⟩)
        · intro M hM
          by_contra hgt
          exact ham (hami.2 ⟨M, hM, not_le.1 hgt⟩)
  · intro hnv
    rw [hslot]
    unfold checkBounds
    have hbm : belowMin spec s = false := by
      by_cases b : belowMin spec s
      · exact absurd (Or.inl (hbmi.1 b)) hnv
      · simpa using b
    have ham : aboveMax spec s = false := by
      by_cases b : aboveMax spec s
      · exact absurd (Or.inr (hami.1 b)) hnv
      · simpa using b
    simp [hbm, ham]

unseal Rat.mul Rat.add Rat.sub Rat.inv in
/-- C5 witness: a float parameter with `max_value = 10` and input `2.0` —
in range as an input — fails, because the encoded value 2,000,000 is
compared against the bound; and with no bounds the slot is the encoded
value. -/
theorem claim5_encoded_bounds_witness :
    (∃ e, encodeSpecSlot
      (ParamSpec.mk (strB "t") .pFloat (some 1000000) none (some 10) true)
      [(strB "t", .vFloat 2)] = .error e) ∧
    encodeSpecSlot
      (ParamSpec.mk (strB "t") .pFloat (some 1000000) none none true)
      [(strB "t", .vFloat 2)] = .ok 2000000 := by
  constructor
  · exact (claim5_encoded_bounds
      (ParamSpec.mk (strB "t") .pFloat (some 1000000) none (some 10) true)
      [(strB "t", .vFloat 2)] (.vFloat 2) 2000000 rfl (by rfl)).1.mpr
      (Or.inr ⟨10, rfl, by norm_num⟩)
  · exact (claim5_encoded_bounds
      (ParamSpec.mk (strB "t") .pFloat (some 1000000) none none true)
      [(strB "t", .vFloat 2)] (.vFloat 2) 2000000 rfl (by rfl)).2
      (by rintro (⟨m, hm, _⟩ | ⟨M, hM, _⟩)
          · exact Option.noConfusion hm
          · exact Option.noConfusion hM)

/-- C10: an absent optional parameter's slot is 0 and its bound checks are
skipped entirely — a schema all of whose (first three) specs are optional
and absent encodes to `(0,0,0)` even when a spec's `min_value` is strictly
positive, and per-spec the slot is 0 for any declared bounds. -/
theorem claim10_optional_skips_bounds (schemas : SchemaTable) (vid oid : Nat)
    (schema : SchemaReg) (params : List (ByteStr × Val))
    (hs : schemas.lookup (vid, oid) = some schema)
    (hall : ∀ spec ∈ schema.params.take 3,
      spec.required = false ∧ pyGet params spec.name = none) :
    encode_params schemas vid oid params = .ok (0, 0, 0) ∧
    (∀ (spec : ParamSpec) (params' : List (ByteStr × Val)),
      spec.required = false → pyGet params' spec.name = none →
      encodeSpecSlot spec params' = .ok 0) := by
  refine ⟨?_, fun s' p' h1 h2 => encodeSpecSlot_missing_optional h1 h2⟩
  by_cases hne : params = []
  · subst hne
    rfl
  · have hie : params.isEmpty = false := by simp [hne]
    have hmapM := mapM_ok_zero (l := schema.params.take 3)
      (f := fun sp => encodeSpecSlot sp params)
      (fun sp hsp =>
        encodeSpecSlot_missing_optional (hall sp hsp).1 (hall sp hsp).2)
    rw [encode_params_schema schemas vid oid params schema hie hs, hmapM,
      except_map_ok, padTo3_replicate_zero]

/-- C10 witness: a schema whose single optional spec declares
`min_value = 1` (which the encoded 0 would violate) still encodes an
absent value to slot 0 and succeeds. -/
theorem claim10_optional_skips_bounds_witness :
    encode_params
      [((1, 1), SchemaReg.mk [ParamSpec.mk (strB "x") .pInt (some 1000000) (some 1) none false])]
      1 1 [(strB "other", .vInt 5)] = .ok (0, 0, 0) ∧
    encodeSpecSlot
      (ParamSpec.mk (strB "x") .pInt (some 1000000) (some 1) none false)
      [] = .ok 0 := by
  have h := claim10_optional_skips_bounds
    [((1, 1), SchemaReg.mk [ParamSpec.mk (strB "x") .pInt (some 1000000) (some 1) none false])]
    1 1
    (SchemaReg.mk [ParamSpec.mk (strB "x") .pInt (some 1000000) (some 1) none false])
    [(strB "other", .vInt 5)]
    (by decide) (by decide)
  exact ⟨h.1, h.2 _ _ rfl rfl⟩

/-! ## C4: generic (schema-less) encoding -/

lemma genericEnc_eq_spec (v : Val) : genericEnc v = genericSlotSpec v := by
  cases v with
  | vStr s =>
    show u32 (token_id (pyStr (.vStr s))) = crc32 (lowerB (stripB s)) % 2 ^ 32
    rw [show pyStr (.vStr s) = s from rfl, token_id, u32_crc32_u32,
      crc32_u32_eq_mod]
  | vInt i => rfl
  | vFloat q =>
    show u32 (to_fixed_u32 q 1000000) =
      (pyRound (q * 1000000) % 4294967296).toNat
    rw [to_fixed_u32, u32_u32I, u32I]
    norm_num
  | vBool b => cases b <;> rfl
  | vNull =>
    show u32 (token_id (pyStr .vNull)) =
      crc32 (lowerB (stripB (strB "None"))) % 2 ^ 32
    rw [show pyStr .vNull = strB "None" from rfl, token_id, u32_crc32_u32,
      crc32_u32_eq_mod]

/-- C4 (amended): with no registered schema and a non-empty parameter
dict, the three slots come from the first three parameters sorted by name:
booleans as 0/1, **integers passed through reduced mod 2^32 (not
hashed)**, floats as fixed-point ×1,000,000, strings and null via the
CRC32 identifier hash of their string form, unfilled slots 0. -/
theorem claim4_generic_encoding (schemas : SchemaTable) (vid oid : Nat)
    (params : List (ByteStr × Val))
    (hnone : schemas.lookup (vid, oid) = none) (hne : params ≠ []) :
    encode_params schemas vid oid params =
      .ok (padTo3 (((sortByKey params).take 3).map
        (fun p => genericSlotSpec p.2))) ∧
    (∀ v, genericEnc v = genericSlotSpec v) := by
  refine ⟨?_, genericEnc_eq_spec⟩
  have hie : params.isEmpty = false := by simp [hne]
  have hfun : (fun p : ByteStr × Val => genericEnc p.2) =
      (fun p : ByteStr × Val => genericSlotSpec p.2) :=
    funext fun p => genericEnc_eq_spec p.2
  rw [encode_params_generic schemas vid oid params hie hnone, hfun]

/-- C4 counterexample to the claim as stated: a plain integer parameter in
the generic path is **not** hashed — `{x: 42}` encodes slot A to 42, not
to the identifier hash of `"42"`. -/
theorem claim4_counterexample :
    encode_params [] 1 1 [(strB "x", .vInt 42)] = .ok (42, 0, 0) ∧
    u32 (token_id (pyStr (.vInt 42))) ≠ 42 :=
  ⟨by rfl, by decide⟩

/-- C4 witness: the amended generic encoding at a concrete mixed-type
parameter set. -/
theorem claim4_generic_encoding_witness :
    encode_params [] 2 2
      [(strB "b", .vBool true), (strB "a", .vInt 7), (strB "c", .vStr (strB "Hi"))] =
      .ok (padTo3 (((sortByKey
        [(strB "b", .vBool true), (strB "a", .vInt 7), (strB "c", .vStr (strB "Hi"))]).take 3).map
        (fun p => genericSlotSpec p.2))) :=
  (claim4_generic_encoding [] 2 2
    [(strB "b", .vBool true), (strB "a", .vInt 7), (strB "c", .vStr (strB "Hi"))]
    rfl (by decide)).1

/-! ## C7: consensus tallying -/

section Consensus

variable {V : Type} [DecidableEq V]

lemma lookup_bumpTally_self (acc : List (V × Nat)) (v : V) :
    (bumpTally acc v).lookup v = some ((acc.lookup v).getD 0 + 1) := by
  induction acc with
  | nil => simp [bumpTally, List.lookup_cons]
  | cons p rest ih =>
    obtain ⟨w, c⟩ := p
    by_cases hvw : v = w
    · subst hvw
      simp [bumpTally, List.lookup_cons]
    · have hb : (v == w) = false := beq_eq_false_iff_ne.2 hvw
      simp [bumpTally, hvw, List.lookup_cons, hb, ih]

lemma lookup_bumpTally_other (acc : List (V × Nat)) (v w : V) (hwv : w ≠ v) :
    (bumpTally acc v).lookup w = acc.lookup w := by
  have hbwv : (w == v) = false := beq_eq_false_iff_ne.2 hwv
  induction acc with
  | nil => simp [bumpTally, List.lookup_cons, hbwv]
  | cons p rest ih =>
    obtain ⟨k, c⟩ := p
    by_cases hvk : v = k
    · subst hvk
      simp [bumpTally, List.lookup_cons, hbwv]
    · by_cases hwk : w = k
      · subst hwk
        simp [bumpTally, hvk, List.lookup_cons]
      · have hbwk : (w == k) = false := beq_eq_false_iff_ne.2 hwk
        simp [bumpTally, hvk, List.lookup_cons, hbwk, ih]

lemma lookup_tallyAux (l : List V) (acc : List (V × Nat)) (w : V) :
    (tallyAux l acc).lookup w =
      match acc.lookup w with
      | some c => some (c + l.count w)
      | none => if w ∈ l then some (l.count w) else none := by
  induction l generalizing acc with
  | nil =>
    rw [tallyAux]
    cases acc.lookup w <;> simp
  | cons v rest ih =>
    rw [tallyAux, ih (bumpTally acc v)]
    by_cases hwv : w = v
    · subst hwv
      rw [lookup_bumpTally_self]
      cases hacc : acc.lookup w with
      | none => simp [List.count_cons]; omega
      | some c => simp [List.count_cons]; omega
    · rw [lookup_bumpTally_other _ _ _ hwv]
      cases hacc : acc.lookup w with
      | none => simp [List.count_cons, hwv, List.mem_cons]
      | some c => simp [List.count_cons, hwv]

lemma mem_keys_bumpTally (acc : List (V × Nat)) (v x : V) :
    x ∈ (bumpTally acc v).map Prod.fst ↔
      x ∈ acc.map Prod.fst ∨ x = v := by
  induction acc with
  | nil => simp [bumpTally]
  | cons p rest ih =>
    obtain ⟨k, c⟩ := p
    by_cases hvk : v = k
    · subst hvk
      simp [bumpTally]
      tauto
    · simp [bumpTally, hvk, ih]
      tauto

lemma nodup_keys_bumpTally (acc : List (V × Nat)) (v : V)
    (h : (acc.map Prod.fst).Nodup) :
    ((bumpTally acc v).map Prod.fst).Nodup := by
  induction acc with
  | nil => simp [bumpTally]
  | cons p rest ih =>
    obtain ⟨k, c⟩ := p
    simp only [List.map_cons, List.nodup_cons] at h
    by_cases hvk : v = k
    · subst hvk
      simpa [bumpTally, List.nodup_cons] using h
    · simp only [bumpTally, hvk, if_false, List.map_cons, List.nodup_cons]
      refine ⟨?_, ih h.2⟩
      rw [mem_keys_bumpTally]
      rintro (hk | rfl)
      · exact h.1 hk
      · exact hvk rfl

lemma nodup_keys_tallyAux (l : List V) (acc : List (V × Nat))
    (h : (acc.map Prod.fst).Nodup) :
    ((tallyAux l acc).map Prod.fst).Nodup := by
  induction l generalizing acc with
  | nil => rw [tallyAux]; exact h
  | cons v rest ih =>
    rw [tallyAux]
    exact ih _ (nodup_keys_bumpTally _ _ h)

lemma lookup_eq_some_of_mem_nodup {l : List (V × Nat)}
    (hnd : (l.map Prod.fst).Nodup) {p : V × Nat} (hp : p ∈ l) :
    l.lookup p.1 = some p.2 := by
  induction l with
  | nil => cases hp
  | cons q rest ih =>
    obtain ⟨k, c⟩ := q
    simp only [List.map_cons, List.nodup_cons] at hnd
    rcases List.mem_cons.1 hp with rfl | hp'
    · simp [List.lookup_cons]
    · have hk : p.1 ≠ k := by
        intro hcon
        exact hnd.1 (hcon ▸ List.mem_map_of_mem Prod.fst hp')
      have hb : (p.1 == k) = false := beq_eq_false_iff_ne.2 hk
      simp [List.lookup_cons, hb, ih hnd.2 hp']

lemma mem_of_lookup_eq_some {l : List (V × Nat)} {x : V} {c : Nat}
    (h : l.lookup x = some c) : (x, c) ∈ l := by
  induction l with
  | nil => simp [List.lookup] at h
  | cons q rest ih =>
    obtain ⟨k, b⟩ := q
    by_cases hxk : x = k
    · subst hxk
      simp [List.lookup_cons] at h
      subst h
      exact List.mem_cons_self _ _
    · have hb : (x == k) = false := beq_eq_false_iff_ne.2 hxk
      simp [List.lookup_cons, hb] at h
      exact List.mem_cons_of_mem _ (ih h)

/-- C7: `check_consensus` returns a vote value only if that value's share
of the recorded votes meets the threshold; when it returns none, no vote
value meets the threshold; with no votes it returns none; and in the
3-voter scenario with two identical votes and one dissent, threshold 0.6
returns the majority vote while threshold 0.7 returns none. -/
theorem claim7_consensus (votes : List (ByteStr × V)) (threshold : ℚ) :
    (∀ v, check_consensus votes threshold = some v →
      (((votes.map Prod.snd).count v : ℚ) / (votes.length : ℚ)) ≥ threshold) ∧
    (check_consensus votes threshold = none →
      ∀ v ∈ votes.map Prod.snd,
        (((votes.map Prod.snd).count v : ℚ) / (votes.length : ℚ)) < threshold) ∧
    check_consensus ([] : List (ByteStr × V)) threshold = none ∧
    (∀ x y : V, x ≠ y →
      check_consensus [(strB "A", x), (strB "B", x), (strB "C", y)]
        (6/10) = some x ∧
      check_consensus [(strB "A", x), (strB "B", x), (strB "C", y)]
        (7/10) = none) := by
  have hkey : ∀ (w : V), w ∈ votes.map Prod.snd →
      (tallyAux (votes.map Prod.snd) ([] : List (V × Nat))).lookup w =
        some ((votes.map Prod.snd).count w) := by
    intro w hw
    rw [lookup_tallyAux]
    simp [List.lookup, hw]
  refine ⟨?_, ?_, rfl, ?_⟩
  · intro v hv
    unfold check_consensus at hv
    by_cases hemp : votes.isEmpty
    · rw [if_pos hemp] at hv
      cases hv
    · rw [if_neg hemp] at hv
      obtain ⟨p, hfind, hfst⟩ := Option.map_eq_some'.1 hv
      have hpred := List.find?_some hfind
      have hmem := List.mem_of_find?_eq_some hfind
      have hnd := nodup_keys_tallyAux (votes.map Prod.snd)
        ([] : List (V × Nat)) (by simp)
      have hlook := lookup_eq_some_of_mem_nodup hnd hmem
      rw [lookup_tallyAux] at hlook
      simp only [List.lookup] at hlook
      by_cases hin : p.1 ∈ votes.map Prod.snd
      · rw [if_pos hin] at hlook
        have hc : (votes.map Prod.snd).count p.1 = p.2 :=
          Option.some.inj hlook
        rw [← hfst, hc]
        exact of_decide_eq_true hpred
      · rw [if_neg hin] at hlook
        cases hlook
  · intro hnone v hv
    unfold check_consensus at hnone
    by_cases hemp : votes.isEmpty
    · rw [List.isEmpty_iff] at hemp
      subst hemp
      cases hv
    · rw [if_neg hemp] at hnone
      have hfind := Option.map_eq_none'.1 hnone
      rw [List.find?_eq_none] at hfind
      have hmem := mem_of_lookup_eq_some (hkey v hv)
      have := hfind _ hmem
      have hnot : ¬ (((votes.map Prod.snd).count v : ℚ) /
          (votes.length : ℚ) ≥ threshold) := by simpa using this
      exact not_le.1 hnot
  · intro x y hxy
    have hyx : ¬ (y = x) := fun h => hxy h.symm
    constructor
    · have e1 : ((2 : ℚ) / 3 ≥ 6 / 10) := by norm_num
      simp [check_consensus, tallyAux, bumpTally, hyx, List.find?, e1]
    · have e2 : ¬ ((2 : ℚ) / 3 ≥ 7 / 10) := by norm_num
      have e3 : ¬ ((1 : ℚ) / 3 ≥ 7 / 10) := by norm_num
      have e4 : ¬ ((7 : ℚ) / 10 ≤ 3⁻¹) := by norm_num
      simp [check_consensus, tallyAux, bumpTally, hyx, List.find?, e2, e3, e4]

end Consensus

/-- C7 witness: the 3-voter scenario at concrete votes, and the no-votes
case. -/
theorem claim7_consensus_witness :
    check_consensus [(strB "A", (0 : Nat)), (strB "B", 0), (strB "C", 1)]
      (6/10) = some 0 ∧
    check_consensus [(strB "A", (0 : Nat)), (strB "B", 0), (strB "C", 1)]
      (7/10) = none ∧
    check_consensus ([] : List (ByteStr × Nat)) (6/10) = none :=
  ⟨((claim7_consensus [(strB "A", (0 : Nat)), (strB "B", 0), (strB "C", 1)]
      (6/10)).2.2.2 0 1 (by decide)).1,
   ((claim7_consensus [(strB "A", (0 : Nat)), (strB "B", 0), (strB "C", 1)]
      (7/10)).2.2.2 0 1 (by decide)).2,
   (claim7_consensus ([] : List (ByteStr × Nat)) (6/10)).2.2.1⟩

/-! ## C1: checksum construction and verification -/

lemma list_eq_nine {α : Type} (l : List α) (h : l.length = 9) :
    ∃ a0 a1 a2 a3 a4 a5 a6 a7 a8,
      l = [a0, a1, a2, a3, a4, a5, a6, a7, a8] := by
  rcases l with _ | ⟨a0, l⟩; · exact absurd h (by simp)
  rcases l with _ | ⟨a1, l⟩; · exact absurd h (by simp)
  rcases l with _ | ⟨a2, l⟩; · exact absurd h (by simp)
  rcases l with _ | ⟨a3, l⟩; · exact absurd h (by simp)
  rcases l with _ | ⟨a4, l⟩; · exact absurd h (by simp)
  rcases l with _ | ⟨a5, l⟩; · exact absurd h (by simp)
  rcases l with _ | ⟨a6, l⟩; · exact absurd h (by simp)
  rcases l with _ | ⟨a7, l⟩; · exact absurd h (by simp)
  rcases l with _ | ⟨a8, l⟩; · exact absurd h (by simp)
  simp only [List.length_cons] at h
  have hl : l.length = 0 := by omega
  rw [List.eq_nil_of_length_eq_zero hl]
  exact ⟨a0, a1, a2, a3, a4, a5, a6, a7, a8, rfl⟩

lemma parse_message_ok (schemas : SchemaTable) (ns : List Int)
    (h9 : ns.length = 9) :
    ∃ r, parse_message schemas ns = .ok r ∧
      r.checksum_ok =
        (crc32_u32 (packWords ((((ns.map u32I).take 8) ++ [0]).map u32)) ==
          (ns.map u32I).getD 8 0) := by
  obtain ⟨n0, n1, n2, n3, n4, n5, n6, n7, n8, rfl⟩ := list_eq_nine ns h9
  exact ⟨_, rfl, rfl⟩

/-- C1: a frame produced by a successful `build_message` carries as its
ninth word the CRC32 of its first eight words packed big-endian with an
implicit zero ninth word (masked to 32 bits); `parse_message` recomputes
the checksum the same way over any 9-word input, reporting the comparison
as the boolean `checksum_ok` instead of failing; and every frame produced
by `build_message` parses with `checksum_ok = true`. -/
theorem claim1_checksum (verbs objs : List (ByteStr × Nat))
    (schemas : SchemaTable) (req : EncodeReq) (nums : List Nat)
    (h : build_message verbs objs schemas req = .ok nums) :
    nums.getD 8 0 = crc32_u32 (packWords ((nums.take 8 ++ [0]).map u32)) ∧
    (∀ ns : List Int, ns.length = 9 →
      ∃ r, parse_message schemas ns = .ok r ∧
        (r.checksum_ok = true ↔
          crc32_u32 (packWords ((((ns.map u32I).take 8) ++ [0]).map u32)) =
            (ns.map u32I).getD 8 0)) ∧
    (∃ r, parse_message schemas (nums.map Int.ofNat) = .ok r ∧
      r.checksum_ok = true) := by
  have hshape : ∃ hdr vid oid a b c t k,
      nums = ([hdr, vid, oid, a, b, c, t, k] ++
        [crc32_u32 (packWords
          (([hdr, vid, oid, a, b, c, t, k] ++ [0]).map u32))]).map u32 := by
    unfold build_message at h
    dsimp only [] at h
    cases hep : encode_params schemas (resolveName verbs req.verb)
        (resolveName objs req.object) req.params with
    | error e =>
      rw [hep] at h
      exact Except.noConfusion h
    | ok abc =>
      obtain ⟨a, b, c⟩ := abc
      rw [hep] at h
      simp only [except_bind_ok] at h
      cases hfb : flags_to_bits req.flags with
      | error e =>
        rw [hfb] at h
        exact Except.noConfusion h
      | ok bits =>
        rw [hfb] at h
        simp only [except_bind_ok] at h
        cases hph : pack_header VERSION (bits : Int)
            (domain_id16 req.domain : Int) with
        | error e =>
          rw [hph] at h
          exact Except.noConfusion h
        | ok hdr =>
          rw [hph] at h
          simp only [except_bind_ok] at h
          exact ⟨hdr, resolveName verbs req.verb, resolveName objs req.object,
            a, b, c, u32I req.timestamp, u32I req.correlation_id,
            (Except.ok.inj h).symm⟩
  obtain ⟨hdr, vid, oid, a, b, c, t, k, rfl⟩ := hshape
  refine ⟨?_, ?_, ?_⟩
  · simp [List.getD, u32_u32, u32_zero, u32_crc32_u32]
  · intro ns h9
    obtain ⟨r, hr, hco⟩ := parse_message_ok schemas ns h9
    refine ⟨r, hr, ?_⟩
    rw [hco]
    exact beq_iff_eq
  · have h9 : ((([hdr, vid, oid, a, b, c, t, k] ++
        [crc32_u32 (packWords
          (([hdr, vid, oid, a, b, c, t, k] ++ [0]).map u32))]).map u32).map
        Int.ofNat).length = 9 := by simp
    obtain ⟨r, hr, hco⟩ := parse_message_ok schemas _ h9
    refine ⟨r, hr, ?_⟩
    rw [hco]
    have heq : crc32_u32 (packWords
        ((((((([hdr, vid, oid, a, b, c, t, k] ++
          [crc32_u32 (packWords (([hdr, vid, oid, a, b, c, t, k] ++ [0]).map u32))]).map u32).map
          Int.ofNat).map u32I).take 8) ++ [0]).map u32)) =
        (((([hdr, vid, oid, a, b, c, t, k] ++
          [crc32_u32 (packWords (([hdr, vid, oid, a, b, c, t, k] ++ [0]).map u32))]).map u32).map
          Int.ofNat).map u32I).getD 8 0 := by
      simp [List.getD, u32I_ofNat, u32I_natCast, u32_u32, u32_zero,
        u32_crc32_u32]
    rw [heq]
    exact beq_self_eq_true _

/-- C1 witness: a concrete `PING AGENT` frame; its ninth word is the CRC32
of the packed first eight words with a zero ninth word, and it parses back
with `checksum_ok = true`. -/
theorem claim1_checksum_witness :
    ∃ nums, build_message VERBS0 OBJECTS0 []
      ⟨strB "PING", strB "AGENT", [], [], none, 0, 0⟩ = .ok nums ∧
      nums.getD 8 0 = crc32_u32 (packWords ((nums.take 8 ++ [0]).map u32)) ∧
      ∃ r, parse_message [] (nums.map Int.ofNat) = .ok r ∧
        r.checksum_ok = true := by
  have h : build_message VERBS0 OBJECTS0 []
      ⟨strB "PING", strB "AGENT", [], [], none, 0, 0⟩ =
      .ok [536870912, 1, 1, 0, 0, 0, 0, 0, 3049863430] := by rfl
  exact ⟨_, h, (claim1_checksum VERBS0 OBJECTS0 [] _ _ h).1,
    (claim1_checksum VERBS0 OBJECTS0 [] _ _ h).2.2⟩

end NLC9
